import Mathlib

/-!
# Verification of the opencode-mystatus multi-provider quota pipeline

Shallow embedding of the plugin's core modules (`plugin/lib/utils.ts`,
`plugin/lib/i18n.ts`, `plugin/lib/minimax.ts`, `plugin/lib/openai.ts`,
`plugin/lib/anthropic.ts`, `plugin/mystatus.ts`) and proofs about the
claims of its specification.

Modelling conventions:
* JavaScript numbers that the code treats as integers (epoch milliseconds,
  prompt counts, seconds) are embedded as `Nat`/`Int`; percentages and other
  possibly fractional quantities are embedded as `ℚ`.
* `Math.round` is `fun q => ⌊q + 1/2⌋` (the JS semantics of rounding half up).
* `Date.now()` and the local-timezone decomposition performed by `new Date(ts)`
  are ambient effects; they are passed as explicit parameters (`now : Nat`,
  `tz : Nat → DateParts`).
* Network calls (`fetch`, the curl subprocess) are passed as explicit outcome
  parameters of type `HttpResult`/`Except`, so that an adapter is a pure
  function of the credential record and the outcome of its remote call.
* JS truthiness tests on optional strings/numbers (`if (x)`) are embedded by
  `strTruthy`/`natTruthy` (absent, empty string and zero are falsy).
-/

namespace MyStatus

/-! ## JS number and string primitives -/

/-- JS `Math.round`: round half towards positive infinity. -/
def jsRound (q : ℚ) : ℤ := ⌊q + 1 / 2⌋

/-- `Math.max(0, Math.min(100, q))` as used by `createProgressBar`. -/
def jsClamp (q : ℚ) : ℚ := max 0 (min 100 q)

/-- Truthiness of an optional string: `undefined` and `""` are falsy. -/
def strTruthy : Option String → Bool
  | none => false
  | some s => s ≠ ""

/-- Truthiness of an optional number: `undefined` and `0` are falsy. -/
def natTruthy : Option Nat → Bool
  | none => false
  | some n => n ≠ 0

/-- Decimal digit character for `d < 10` (the characters produced by JS
number-to-string conversion of a natural number). -/
def decDigit (d : Nat) : Char := Nat.digitChar d

/-- Fuel-driven decimal digit list of a natural number (most significant
first).  `fuel` bounds the recursion depth; `natStr` supplies enough fuel. -/
def natDigitsAux : Nat → Nat → List Char
  | 0, _ => []
  | fuel + 1, n =>
    if n < 10 then [decDigit n]
    else natDigitsAux fuel (n / 10) ++ [decDigit (n % 10)]

/-- Model of JS template interpolation `${n}` for a natural number. -/
def natStr (n : Nat) : String := ⟨natDigitsAux (n + 1) n⟩

/-- Model of JS template interpolation `${i}` for an integer. -/
def intStr (i : Int) : String :=
  if i < 0 then "-" ++ natStr i.natAbs else natStr i.toNat

/-- JS `String.prototype.padStart(2, "0")`. -/
def pad2 (n : Nat) : String :=
  let s := natStr n
  if s.length ≥ 2 then s else ⟨List.replicate (2 - s.length) '0'⟩ ++ s

/-- JS `Array.prototype.join(sep)`. -/
def joinSep (sep : String) : List String → String
  | [] => ""
  | p :: ps => ps.foldl (fun acc q => acc ++ sep ++ q) p

/-! ## `plugin/lib/utils.ts` -/

/-- The two supported locales of `i18n.ts`. -/
inductive Lang where
  | en
  | vi
deriving DecidableEq

/-- `t.days` of `i18n.ts`. -/
def tDays (lang : Lang) (n : Nat) : String :=
  match lang with
  | .en => natStr n ++ "d"
  | .vi => natStr n ++ "ngày"

/-- `t.hours` of `i18n.ts`. -/
def tHours (lang : Lang) (n : Nat) : String :=
  match lang with
  | .en => natStr n ++ "h"
  | .vi => natStr n ++ "giờ"

/-- `t.minutes` of `i18n.ts`. -/
def tMinutes (lang : Lang) (n : Nat) : String :=
  match lang with
  | .en => natStr n ++ "m"
  | .vi => natStr n ++ "phút"

/-- The parts array built by `formatDuration` before joining. -/
def durationParts (lang : Lang) (seconds : Nat) : List String :=
  let days := seconds / 86400
  let hours := seconds % 86400 / 3600
  let minutes := seconds % 3600 / 60
  let p1 : List String := if days > 0 then [tDays lang days] else []
  let p2 : List String := p1 ++ (if hours > 0 then [tHours lang hours] else [])
  p2 ++ (if minutes > 0 ∨ p2 = [] then [tMinutes lang minutes] else [])

/-- `formatDuration` of `utils.ts`: decompose seconds into days/hours/minutes
and join with a locale-dependent separator. -/
def formatDuration (lang : Lang) (seconds : Nat) : String :=
  joinSep (if lang = .en then " " else "") (durationParts lang seconds)

/-- The local-time components that `new Date(ts)` exposes through `getDate`,
`getMonth() + 1`, `getFullYear`, `getHours`, `getMinutes`, `getSeconds`. -/
structure DateParts where
  day : Nat
  month : Nat
  year : Nat
  hours : Nat
  minutes : Nat
  seconds : Nat

/-- `formatResetTime` of `utils.ts`.  `tz` is the ambient local-timezone
decomposition of an epoch-millisecond instant, `now` is `Date.now()`. -/
def formatResetTime (tz : Nat → DateParts) (lang : Lang) (now : Nat)
    (resetTimestamp : Nat) (dateOnly : Bool) : String :=
  if resetTimestamp ≤ now then "Resets now"
  else
    let diffSeconds := (resetTimestamp - now) / 1000
    let dp := tz resetTimestamp
    let day := pad2 dp.day
    let month := pad2 dp.month
    let year := natStr dp.year
    let hours := pad2 dp.hours
    let minutes := pad2 dp.minutes
    let seconds := pad2 dp.seconds
    if dateOnly then hours ++ ":" ++ minutes ++ " - " ++ day ++ "/" ++ month ++ "/" ++ year
    else
      "Resets in: " ++ formatDuration lang diffSeconds ++ " (at " ++ hours ++ ":" ++
        minutes ++ ":" ++ seconds ++ " " ++ day ++ "/" ++ month ++ "/" ++ year ++ ")"

/-- `createProgressBar` of `utils.ts`: clamp to [0,100], round the filled cell
count, render solid blocks then light blocks. -/
def createProgressBar (remainPercent : ℚ) (width : Nat := 30) : String :=
  let safePercent := jsClamp remainPercent
  let filled := (jsRound (safePercent / 100 * width)).toNat
  let empty := width - filled
  ⟨List.replicate filled '█' ++ List.replicate empty '░'⟩

/-- `calcRemainPercent` of `utils.ts`: `Math.round(100 - usedPercent)`. -/
def calcRemainPercent (usedPercent : ℚ) : ℤ := jsRound (100 - usedPercent)

/-- `maskString` of `utils.ts`: keep the first and last `showChars` characters,
replace the middle with `"****"`; strings of length at most `2 * showChars`
are returned unchanged. -/
def maskString (str : String) (showChars : Nat := 4) : String :=
  if str.length ≤ showChars * 2 then str
  else ⟨str.data.take showChars⟩ ++ "****" ++ ⟨str.data.drop (str.data.length - showChars)⟩

/-! ## The countdown-extraction regex

`minimax.ts` and `anthropic.ts` both define

```
function extractCountdown(fullString: string): string {
  const match = fullString.match(/Resets in:\s*(.+?)\s*\(/);
  return match ? match[1].trim() : fullString;
}
```

We embed the concrete regular expression `/Resets in:\s*(.+?)\s*\(/` with
JS `RegExp.prototype.exec` semantics: leftmost starting position wins; at a
fixed position the literal is matched, then `\s*` greedily (longest first,
with backtracking), then the lazy group `(.+?)` (shortest first), then
`\s*\(`.  `\s` is modelled by the ASCII whitespace characters (the inputs the
plugin produces contain only `' '`), and `.` excludes the line terminators
`'\n'`/`'\r'`. -/

/-- The ASCII part of the JS `\s` character class. -/
def isJsWs (c : Char) : Bool :=
  c = ' ' || c = '\t' || c = '\n' || c = '\r' || c = '\x0b' || c = '\x0c'

/-- Characters matched by `.` (anything but a line terminator). -/
def dotOk (c : Char) : Bool := !(c = '\n' || c = '\r')

/-- Matching `\s*\(` at the head of `s`: skip any run of whitespace, succeed
as soon as `'('` is reached. -/
def wsThenParen : List Char → Bool
  | [] => false
  | c :: rest => if c = '(' then true else if isJsWs c then wsThenParen rest else false

/-- First success of `f` on `start, start+1, …` (at most `fuel` attempts):
the order in which a lazy quantifier grows its match. -/
def firstNat {β : Type} : Nat → Nat → (Nat → Option β) → Option β
  | 0, _, _ => none
  | fuel + 1, start, f =>
    match f start with
    | some b => some b
    | none => firstNat fuel (start + 1) f

/-- First success of `f` on `w, w-1, …, 0`: the order in which a greedy
quantifier shrinks its match while backtracking. -/
def firstNatDesc {β : Type} (f : Nat → Option β) : Nat → Option β
  | 0 => f 0
  | w + 1 =>
    match f (w + 1) with
    | some b => some b
    | none => firstNatDesc f w

/-- The lazy group `(.+?)` followed by `\s*\(`: try capture lengths
`1, 2, …` and return the first capture after which `\s*\(` matches. -/
def lazyGroup (s1 : List Char) : Option (List Char) :=
  firstNat s1.length 1 fun g =>
    let cap := s1.take g
    if cap.all dotOk && wsThenParen (s1.drop g) then some cap else none

/-- After the literal `"Resets in:"`: greedy `\s*` (longest whitespace run
first, backtracking downwards), then the lazy group. -/
def afterLiteral (rest : List Char) : Option (List Char) :=
  firstNatDesc (fun w1 => lazyGroup (rest.drop w1)) (rest.takeWhile isJsWs).length

/-- The characters of the literal `"Resets in:"`. -/
def litResetsIn : List Char := ['R', 'e', 's', 'e', 't', 's', ' ', 'i', 'n', ':']

/-- Leftmost match of `/Resets in:\s*(.+?)\s*\(/`, returning the capture. -/
def scanMatch : List Char → Option (List Char)
  | [] => none
  | c :: rest =>
    match
      (if litResetsIn.isPrefixOf (c :: rest) then
        afterLiteral ((c :: rest).drop litResetsIn.length)
      else none) with
    | some cap => some cap
    | none => scanMatch rest

/-- JS `String.prototype.trim()` on a character list. -/
def jsTrim (l : List Char) : List Char :=
  ((l.dropWhile isJsWs).reverse.dropWhile isJsWs).reverse

/-- `extractCountdown` of `minimax.ts` and (identically) `anthropic.ts`. -/
def extractCountdown (fullString : String) : String :=
  match scanMatch fullString.data with
  | some cap => ⟨jsTrim cap⟩
  | none => fullString

/-! ### Character classification of duration strings -/

/-- Decimal digit characters, by code point. -/
def isDigitChar (c : Char) : Prop := 48 ≤ c.toNat ∧ c.toNat ≤ 57

instance : DecidablePred isDigitChar := fun c =>
  inferInstanceAs (Decidable (48 ≤ c.toNat ∧ c.toNat ≤ 57))

/-! ## Shared types (`plugin/lib/types.ts`) and localized strings (`i18n.ts`) -/

/-- `TableRowData` of `types.ts`: one normalized usage row. -/
structure TableRowData where
  provider : String
  account : String
  plan : String
  used : String
  remaining : String
  resetIn : String
  resetDate : String
deriving DecidableEq

/-- `QueryResult` of `types.ts`: outcome of one adapter invocation.  The
optional fields model the fields a given branch leaves `undefined`. -/
structure QueryResult where
  success : Bool
  output : Option String := none
  tableRows : Option (List TableRowData) := none
  error : Option String := none
deriving DecidableEq

/-- Modelled from the spec: `HIGH_USAGE_THRESHOLD` is declared in
`plugin/lib/types.ts`, which is not under `src/`; the spec only calls it "the
configured high-usage threshold" for the warning line.  Its numeric value does
not influence any claim settled here. -/
def HIGH_USAGE_THRESHOLD : ℚ := 90

/-- Outcome of one remote HTTP call as observed by an adapter: the promise
rejected with an error message (network failure or timeout), or a response
arrived with `ok = false` (non-2xx status and body text), or a 2xx response
whose JSON body parsed to `α`. -/
inductive HttpResult (α : Type) where
  | fail (msg : String)
  | notOk (status : Nat) (body : String)
  | ok (data : α)

/-- `t.account`. -/
def tAccount : Lang → String
  | .en => "Account:"
  | .vi => "Tài khoản:"

/-- `t.unknown`. -/
def tUnknown : Lang → String
  | .en => "unknown"
  | .vi => "Không xác định"

/-- `t.used`. -/
def tUsed : Lang → String
  | .en => "Used"
  | .vi => "Đã dùng"

/-- `t.remaining`. -/
def tRemaining (lang : Lang) (p : Int) : String :=
  match lang with
  | .en => intStr p ++ "% remaining"
  | .vi => "Còn lại " ++ intStr p ++ "%"

/-- `t.resetIn` (the identity template in both locales). -/
def tResetIn (_lang : Lang) (s : String) : String := s

/-- `t.limitReached`. -/
def tLimitReached : Lang → String
  | .en => "⚠️ Rate limit reached!"
  | .vi => "⚠️ Đã đạt Giới hạn!"

/-- `t.hourLimit`. -/
def tHourLimit (lang : Lang) (h : Int) : String :=
  match lang with
  | .en => intStr h ++ "-hour limit"
  | .vi => "Giới hạn " ++ intStr h ++ " giờ"

/-- `t.dayLimit`. -/
def tDayLimit (lang : Lang) (d : Int) : String :=
  match lang with
  | .en => intStr d ++ "-day limit"
  | .vi => "Giới hạn " ++ intStr d ++ " ngày"

/-- `t.apiError` (the OpenAI API error template). -/
def tApiError (lang : Lang) (status : Nat) (text : String) : String :=
  match lang with
  | .en => "OpenAI API request failed (" ++ natStr status ++ "): " ++ text
  | .vi => "Yêu cầu OpenAI API thất bại (" ++ natStr status ++ "): " ++ text

/-- `t.tokenExpired`. -/
def tTokenExpired : Lang → String
  | .en => "⚠️ OAuth token expired. Please use an OpenAI model in OpenCode to refresh authorization."
  | .vi => "⚠️ Token OAuth đã hết hạn. Vui lòng sử dụng một mô hình OpenAI trong OpenCode để làm mới quyền truy cập."

/-- `t.noAccounts`. -/
def tNoAccounts : Lang → String
  | .en => "No configured accounts found.\n\nSupported account types:\n- OpenAI (Plus/Team/Pro subscribers)\n- MiniMax (Coding Plan)\n- Anthropic (Claude API)\n- GitHub Copilot"
  | .vi => "Không tìm thấy tài khoản nào đã cấu hình.\n\nCác loại tài khoản được hỗ trợ:\n- OpenAI (Plus/Team/Pro)\n- MiniMax (Coding Plan)\n- Anthropic (Claude API)\n- GitHub Copilot"

/-- `t.queryFailed`. -/
def tQueryFailed : Lang → String
  | .en => "❌ Failed to query accounts:\n"
  | .vi => "❌ Các tài khoản truy vấn thất bại:\n"

/-- `t.noQuotaData`. -/
def tNoQuotaData : Lang → String
  | .en => "No quota data available"
  | .vi => "Không có dữ liệu hạn mức"

/-- `t.minimaxNeedLogin`. -/
def tMinimaxNeedLogin : Lang → String
  | .en => "⚠️ MiniMax session expired or not logged in.\nBrowser will open automatically for you to login.\nAfter login, close the browser and session will be saved automatically."
  | .vi => "⚠️ Session MiniMax đã hết hạn hoặc chưa đăng nhập.\nTrình duyệt sẽ tự động mở để bạn đăng nhập.\nSau khi đăng nhập, đóng trình duyệt và session sẽ được lưu tự động."

/-- `t.minimaxPromptLimit`. -/
def tMinimaxPromptLimit : Lang → String
  | .en => "5-hour prompt limit"
  | .vi => "Giới hạn prompt 5 giờ"

/-- `t.anthropic5HourUsage`. -/
def tAnthropic5HourUsage : Lang → String
  | .en => "5-hour window (Session)"
  | .vi => "Cửa sổ 5 giờ (Session)"

/-- `t.anthropic7DayUsage`. -/
def tAnthropic7DayUsage : Lang → String
  | .en => "7-day window (Weekly)"
  | .vi => "Cửa sổ 7 ngày (Weekly)"

/-- `t.tableTitle`. -/
def tTableTitle : Lang → String
  | .en => "## AI Provider Quota Status"
  | .vi => "## Trạng thái hạn mức nhà cung cấp AI"

/-- `t.tableHeader`, as the seven column labels. -/
def tableHeader (lang : Lang) : TableRowData :=
  match lang with
  | .en => ⟨"Provider", "Account", "Plan", "Used", "Remaining", "Reset In", "Reset Date"⟩
  | .vi => ⟨"Nhà cung cấp", "Tài khoản", "Gói", "Đã dùng", "Còn lại", "Thời gian reset", "Ngày reset"⟩

/-! ## `plugin/lib/minimax.ts` -/

/-- `MiniMaxModelRemain` of `minimax.ts`. -/
structure MiniMaxModelRemain where
  start_time : Nat
  end_time : Nat
  remains_time : Nat
  current_interval_total_count : Int
  current_interval_usage_count : Int
  model_name : String

/-- The `data` record of `MiniMaxRemainsResponse`.  All fields are optional
because the code guards each access with `== null` checks or `??`. -/
structure MiniMaxPlanData where
  plan_name : Option String := none
  total_prompts : Option Int := none
  used_prompts : Option Int := none
  remaining_prompts : Option Int := none
  next_reset_time : Option Nat := none
  usage_percentage : Option ℚ := none

/-- `MiniMaxRemainsResponse` of `minimax.ts` (the `base_resp` status check is
performed inside `fetchWithCurl`, which is modelled as an `Except` outcome). -/
structure MiniMaxRemainsResponse where
  model_remains : Option (List MiniMaxModelRemain) := none
  data : Option MiniMaxPlanData := none

/-- The plan label `d?.plan_name ? Coding Plan - ... : "Coding Plan"` used by
both the legacy text and the row (JS truthiness: an empty name is falsy). -/
def minimaxPlanLabel (d : Option MiniMaxPlanData) : String :=
  match d with
  | some dd =>
    match dd.plan_name with
    | some pn => if pn ≠ "" then "Coding Plan - " ++ pn else "Coding Plan"
    | none => "Coding Plan"
  | none => "Coding Plan"

/-- `formatMiniMaxUsage` of `minimax.ts`. -/
def formatMiniMaxUsage (tz : Nat → DateParts) (lang : Lang) (now : Nat)
    (resp : MiniMaxRemainsResponse) (apiKey : String) : String :=
  let maskedKey := maskString apiKey 8
  match resp.model_remains.bind List.head? with
  | some modelRemains =>
    let total := modelRemains.current_interval_total_count
    let used := modelRemains.current_interval_usage_count
    let usagePercent : ℚ := if total > 0 then (used : ℚ) / (total : ℚ) * 100 else 0
    let remainPercent := calcRemainPercent usagePercent
    let progressBar := createProgressBar (remainPercent : ℚ)
    let lines : List String :=
      ["**" ++ tAccount lang ++ "** MiniMax (" ++ maskedKey ++ ") - " ++
         modelRemains.model_name,
       "",
       "ðŸ”„ " ++ tMinimaxPromptLimit lang,
       progressBar ++ " " ++ tRemaining lang remainPercent,
       tUsed lang ++ ": " ++ intStr used ++ " / " ++ intStr total ++ " prompts"]
    let lines :=
      if modelRemains.end_time ≠ 0 ∧ now < modelRemains.end_time then
        lines ++ [tResetIn lang (formatResetTime tz lang now modelRemains.end_time false)]
      else lines
    let lines :=
      if usagePercent ≥ HIGH_USAGE_THRESHOLD then lines ++ ["", tLimitReached lang]
      else lines
    joinSep "\n" lines
  | none =>
    match resp.data with
    | some d =>
      let planLabel := minimaxPlanLabel (some d)
      let lines : List String :=
        [tAccount lang ++ "        " ++ maskedKey ++ " (" ++ planLabel ++ ")", ""]
      if d.total_prompts = none ∧ d.remaining_prompts = none then
        joinSep "\n" (lines ++ [tNoQuotaData lang])
      else
        let total := d.total_prompts.getD 0
        let used := d.used_prompts.getD (total - d.remaining_prompts.getD total)
        let usagePercent : ℚ :=
          d.usage_percentage.getD (if total > 0 then (used : ℚ) / (total : ℚ) * 100 else 0)
        let remainPercent := calcRemainPercent usagePercent
        let progressBar := createProgressBar (remainPercent : ℚ)
        let lines := lines ++
          [tMinimaxPromptLimit lang,
           progressBar ++ " " ++ tRemaining lang remainPercent,
           tUsed lang ++ ": " ++ intStr used ++ " / " ++ intStr total ++ " prompts"]
        let lines :=
          match d.next_reset_time with
          | some nrt =>
            if nrt ≠ 0 ∧ now < nrt then
              lines ++ [tResetIn lang (formatResetTime tz lang now nrt false)]
            else lines
          | none => lines
        let lines :=
          if usagePercent ≥ HIGH_USAGE_THRESHOLD then lines ++ ["", tLimitReached lang]
          else lines
        joinSep "\n" lines
    | none =>
      joinSep "\n" [tAccount lang ++ " MiniMax (" ++ maskedKey ++ ")", "", tNoQuotaData lang]

/-- `extractTableRow` of `minimax.ts`.  (The source also computes an unused
`remainingPrompts` local; it does not influence the row.) -/
def minimaxExtractTableRow (tz : Nat → DateParts) (lang : Lang) (now : Nat)
    (resp : MiniMaxRemainsResponse) (apiKey : String) : TableRowData :=
  let maskedKey := maskString apiKey 4
  let planLabel := minimaxPlanLabel resp.data
  match resp.model_remains.bind List.head? with
  | some modelRemains =>
    let totalPrompts := modelRemains.current_interval_total_count
    let usedPrompts := modelRemains.current_interval_usage_count
    let usagePercent : ℚ :=
      if totalPrompts > 0 then (usedPrompts : ℚ) / (totalPrompts : ℚ) * 100 else 0
    let used := intStr (jsRound (100 - usagePercent)) ++ "%"
    let remaining := intStr (jsRound usagePercent) ++ "%"
    if modelRemains.end_time ≠ 0 ∧ now < modelRemains.end_time then
      ⟨"MiniMax", maskedKey, planLabel, used, remaining,
        extractCountdown (formatResetTime tz lang now modelRemains.end_time false),
        formatResetTime tz lang now modelRemains.end_time true⟩
    else ⟨"MiniMax", maskedKey, planLabel, used, remaining, "-", "-"⟩
  | none =>
    match resp.data with
    | some d =>
      let totalPrompts := d.total_prompts.getD 0
      let usedPrompts := d.used_prompts.getD 0
      let usagePercent : ℚ :=
        if totalPrompts > 0 then (usedPrompts : ℚ) / (totalPrompts : ℚ) * 100 else 0
      let used := intStr (jsRound (100 - usagePercent)) ++ "%"
      let remaining := intStr (jsRound usagePercent) ++ "%"
      match d.next_reset_time with
      | some nrt =>
        if nrt ≠ 0 ∧ now < nrt then
          ⟨"MiniMax", maskedKey, planLabel, used, remaining,
            extractCountdown (formatResetTime tz lang now nrt false),
            formatResetTime tz lang now nrt true⟩
        else ⟨"MiniMax", maskedKey, planLabel, used, remaining, "-", "-"⟩
      | none => ⟨"MiniMax", maskedKey, planLabel, used, remaining, "-", "-"⟩
    | none => ⟨"MiniMax", maskedKey, planLabel, "-", "-", "-", "-"⟩

/-- `queryMiniMaxUsage` of `minimax.ts`.  `MiniMaxAuthData` only contributes
its `key` field, so the credential is embedded as `Option (Option String)`
(record present / key field); `fetchResult` is the settled outcome of
`fetchWithCurl` (whose JSON-parse and `base_resp` error translation happen
before the adapter sees a value). -/
def queryMiniMaxUsage (tz : Nat → DateParts) (lang : Lang) (now : Nat)
    (fetchResult : Except String MiniMaxRemainsResponse)
    (authData : Option (Option String)) : Option QueryResult :=
  match authData.bind id with
  | none => some ⟨false, none, none, some (tMinimaxNeedLogin lang)⟩
  | some key =>
    if key = "" then some ⟨false, none, none, some (tMinimaxNeedLogin lang)⟩
    else
      match fetchResult with
      | .error msg => some ⟨false, none, none, some msg⟩
      | .ok usage =>
        some ⟨true, some (formatMiniMaxUsage tz lang now usage key),
          some [minimaxExtractTableRow tz lang now usage key], none⟩

/-- A fixed local-timezone decomposition used by concrete witnesses. -/
def tzFix : Nat → DateParts := fun _ => ⟨19, 2, 2026, 11, 20, 10⟩

/-! ## `plugin/lib/openai.ts`

The usage endpoint reports integral percentages and whole seconds, and the
code templates `used_percent` directly into the row (`` `${usedPercent}%` ``),
so `used_percent` is embedded as `Int` and the second fields as `Nat`.
The JWT payload extraction (base64url + JSON decode of the token's middle
segment) is an effectful decode of an opaque string; it is passed as the
oracle `getEmail`. -/

/-- `RateLimitWindow` of `openai.ts`. -/
structure RateLimitWindow where
  used_percent : Int
  limit_window_seconds : Nat
  reset_after_seconds : Nat

/-- The `rate_limit` record of `OpenAIUsageResponse`.  The windows are
optional because the code guards them (`rate_limit?.primary_window`,
`if (!primary)`). -/
structure OpenAIRateLimit where
  limit_reached : Bool
  primary_window : Option RateLimitWindow := none
  secondary_window : Option RateLimitWindow := none

/-- `OpenAIUsageResponse` of `openai.ts`. -/
structure OpenAIUsageResponse where
  plan_type : String
  rate_limit : Option OpenAIRateLimit := none

/-- `OpenAIAuthData` (from `types.ts`): the fields `queryOpenAIUsage` reads. -/
structure OpenAIAuthData where
  type : String
  access : Option String := none
  refresh : Option String := none
  expires : Option Nat := none

/-- `formatWindowName` of `openai.ts`. -/
def formatWindowName (lang : Lang) (seconds : Nat) : String :=
  let days := jsRound ((seconds : ℚ) / 86400)
  if days ≥ 1 then tDayLimit lang days
  else tHourLimit lang (jsRound ((seconds : ℚ) / 3600))

/-- `formatWindow` of `openai.ts`. -/
def formatWindow (lang : Lang) (window : RateLimitWindow) : List String :=
  let windowName := formatWindowName lang window.limit_window_seconds
  let remainPercent := calcRemainPercent (window.used_percent : ℚ)
  let progressBar := createProgressBar (remainPercent : ℚ)
  let resetTime := formatDuration lang window.reset_after_seconds
  [windowName, progressBar ++ " " ++ tRemaining lang remainPercent, tResetIn lang resetTime]

/-- `email || t.unknown` (JS truthiness: `null` and `""` fall back). -/
def openaiAccountDisplay (lang : Lang) (email : Option String) : String :=
  match email with
  | some e => if e ≠ "" then e else tUnknown lang
  | none => tUnknown lang

/-- The `lines` array built by `formatOpenAIUsage` before joining. -/
def formatOpenAIUsageLines (lang : Lang) (data : OpenAIUsageResponse)
    (email : Option String) : List String :=
  let head := [tAccount lang ++ "        " ++ openaiAccountDisplay lang email ++
    " (" ++ data.plan_type ++ ")", ""]
  let head := head ++
    (match data.rate_limit with
     | some rl =>
       match rl.primary_window with
       | some pw => formatWindow lang pw
       | none => []
     | none => [])
  let head := head ++
    (match data.rate_limit with
     | some rl =>
       match rl.secondary_window with
       | some sw => "" :: formatWindow lang sw
       | none => []
     | none => [])
  head ++
    (match data.rate_limit with
     | some rl => if rl.limit_reached then ["", tLimitReached lang] else []
     | none => [])

/-- `formatOpenAIUsage` of `openai.ts`. -/
def formatOpenAIUsage (lang : Lang) (data : OpenAIUsageResponse)
    (email : Option String) : String :=
  joinSep "\n" (formatOpenAIUsageLines lang data email)

/-- `extractTableRow` of `openai.ts`: only the primary window is tabulated. -/
def openaiExtractTableRow (tz : Nat → DateParts) (lang : Lang) (now : Nat)
    (data : OpenAIUsageResponse) (email : Option String) : Option TableRowData :=
  match data.rate_limit.bind OpenAIRateLimit.primary_window with
  | none => none
  | some primary =>
    let usedPercent := primary.used_percent
    let remainPercent := calcRemainPercent (usedPercent : ℚ)
    let resetAfter := primary.reset_after_seconds
    let resetDateStr :=
      if resetAfter > 0 then
        if now < now + resetAfter * 1000 then
          formatResetTime tz lang now (now + resetAfter * 1000) true
        else "-"
      else "-"
    let resetIn := if resetAfter > 0 then formatDuration lang resetAfter else "-"
    some ⟨"OpenAI", openaiAccountDisplay lang email, data.plan_type,
      intStr usedPercent ++ "%", intStr remainPercent ++ "%", resetIn, resetDateStr⟩

/-- The token-expiry test `authData.expires && authData.expires < Date.now()`
(JS truthiness: an absent or zero `expires` skips the check). -/
def oauthExpired (expires : Option Nat) (now : Nat) : Bool :=
  match expires with
  | some e => e ≠ 0 && decide (e < now)
  | none => false

/-- `queryOpenAIUsage` of `openai.ts`.  `fetchResult` is the outcome of
`fetchOpenAIUsage`: `.notOk` is the non-2xx branch that throws
`t.apiError(status, body)`, `.fail` a rejection of `fetchWithTimeout` itself;
both are caught and converted to failure results. -/
def queryOpenAIUsage (tz : Nat → DateParts) (lang : Lang) (now : Nat)
    (getEmail : String → Option String)
    (fetchResult : HttpResult OpenAIUsageResponse)
    (authData : Option OpenAIAuthData) : Option QueryResult :=
  match authData with
  | none => none
  | some a =>
    if a.type ≠ "oauth" then none
    else if ¬ strTruthy a.access then none
    else
      let access := a.access.getD ""
      if oauthExpired a.expires now then
        some ⟨false, none, none, some (tTokenExpired lang)⟩
      else
        match fetchResult with
        | .fail msg => some ⟨false, none, none, some msg⟩
        | .notOk status body => some ⟨false, none, none, some (tApiError lang status body)⟩
        | .ok usage =>
          let email := getEmail access
          some ⟨true, some (formatOpenAIUsage lang usage email),
            some
              (match openaiExtractTableRow tz lang now usage email with
               | some row => [row]
               | none => []), none⟩

/-! ## `plugin/lib/anthropic.ts`

`resets_at` is an ISO timestamp string which the code converts through
`new Date(str).getTime()`; that conversion is passed as the oracle
`parseDate` (`none` models an invalid date, whose `NaN` comparison with
`Date.now()` is false). -/

/-- One utilization window of `ClaudeUsageResponse`. -/
structure ClaudeWindow where
  utilization : ℚ
  resets_at : Option String := none

/-- `ClaudeUsageResponse` of `anthropic.ts` (`seven_day_sonnet` is declared
in the interface but never read). -/
structure ClaudeUsageResponse where
  five_hour : Option ClaudeWindow := none
  seven_day : Option ClaudeWindow := none
  seven_day_sonnet : Option ℚ := none

/-- `AnthropicAuthData` (from `types.ts`): the fields the adapter reads. -/
structure AnthropicAuthData where
  access : Option String := none
  refresh : Option String := none
  expires : Option Nat := none

/-- The JSON body of a successful token-refresh response. -/
structure RefreshTokenBody where
  access_token : Option String := none

/-- `refreshAccessToken` of `anthropic.ts`: any failure (rejection or
non-2xx) yields `null`; a 2xx body yields `json.access_token || null`. -/
def refreshAccessToken (result : HttpResult RefreshTokenBody) : Option String :=
  match result with
  | .fail _ => none
  | .notOk _ _ => none
  | .ok body =>
    match body.access_token with
    | some tokn => if tokn ≠ "" then some tokn else none
    | none => none

/-- `fetchClaudeUsage` of `anthropic.ts`: a non-2xx response (`!response.ok`)
and a thrown transport error (`catch`) both yield `null`. -/
def fetchClaudeUsage (result : HttpResult ClaudeUsageResponse) :
    Option ClaudeUsageResponse :=
  match result with
  | .fail _ => none
  | .notOk _ _ => none
  | .ok data => some data

/-- The reset lines appended for a window when `resets_at` is truthy and the
parsed instant is strictly in the future. -/
def claudeResetLine (tz : Nat → DateParts) (lang : Lang) (now : Nat)
    (parseDate : String → Option Nat) (resets_at : Option String) : List String :=
  match resets_at with
  | some ra =>
    if ra ≠ "" then
      match parseDate ra with
      | some tm => if now < tm then [tResetIn lang (formatResetTime tz lang now tm false)] else []
      | none => []
    else []
  | none => []

/-- `formatClaudeUsage` of `anthropic.ts`.  (`utilization || 0` maps a zero
utilization to itself, so it is the identity on the embedded rational.) -/
def formatClaudeUsage (tz : Nat → DateParts) (lang : Lang) (now : Nat)
    (parseDate : String → Option Nat) (data : Option ClaudeUsageResponse)
    (accessToken : String) : String :=
  let maskedToken := maskString accessToken 8
  let head := ["**" ++ tAccount lang ++ "** Claude.ai (" ++ maskedToken ++ ")", ""]
  match data with
  | none => joinSep "\n" (head ++ [tNoQuotaData lang])
  | some d =>
    let fiveBlock :=
      match d.five_hour with
      | some fiveHour =>
        let sessionUsed := jsRound fiveHour.utilization
        let remainPercent := calcRemainPercent (sessionUsed : ℚ)
        let progressBar := createProgressBar (remainPercent : ℚ)
        ["🔄 " ++ tAnthropic5HourUsage lang,
         progressBar ++ " " ++ tRemaining lang remainPercent,
         tUsed lang ++ ": " ++ intStr sessionUsed ++ "%"] ++
          claudeResetLine tz lang now parseDate fiveHour.resets_at ++
          (if (sessionUsed : ℚ) ≥ HIGH_USAGE_THRESHOLD then [tLimitReached lang] else [])
      | none => []
    let lines := head ++ fiveBlock
    let lines := lines ++
      (match d.seven_day with
       | some sevenDay =>
         let weeklyUsed := jsRound sevenDay.utilization
         let remainPercent := calcRemainPercent (weeklyUsed : ℚ)
         let progressBar := createProgressBar (remainPercent : ℚ)
         (if lines.length > 2 then [""] else []) ++
           ["📅 " ++ tAnthropic7DayUsage lang,
            progressBar ++ " " ++ tRemaining lang remainPercent,
            tUsed lang ++ ": " ++ intStr weeklyUsed ++ "%"] ++
           claudeResetLine tz lang now parseDate sevenDay.resets_at ++
           (if (weeklyUsed : ℚ) ≥ HIGH_USAGE_THRESHOLD then [tLimitReached lang] else [])
       | none => [])
    joinSep "\n" lines

/-- The `(resetIn, resetDate)` pair a window contributes to its row. -/
def claudeResetPair (tz : Nat → DateParts) (lang : Lang) (now : Nat)
    (parseDate : String → Option Nat) (resets_at : Option String) : String × String :=
  match resets_at with
  | some ra =>
    if ra ≠ "" then
      match parseDate ra with
      | some tm =>
        if now < tm then
          (extractCountdown (formatResetTime tz lang now tm false),
            formatResetTime tz lang now tm true)
        else ("-", "-")
      | none => ("-", "-")
    else ("-", "-")
  | none => ("-", "-")

/-- `extractTableRows` of `anthropic.ts`: up to two rows, the 5-hour session
window first, then the 7-day weekly window. -/
def anthropicExtractTableRows (tz : Nat → DateParts) (lang : Lang) (now : Nat)
    (parseDate : String → Option Nat) (data : Option ClaudeUsageResponse)
    (accessToken : String) : List TableRowData :=
  match data with
  | none => []
  | some d =>
    let maskedToken := maskString accessToken 4
    let fiveRows :=
      match d.five_hour with
      | some fiveHour =>
        let usedPercent := jsRound fiveHour.utilization
        let pair := claudeResetPair tz lang now parseDate fiveHour.resets_at
        [⟨"Anthropic", maskedToken, "Claude Pro (5h)", intStr usedPercent ++ "%",
          intStr (calcRemainPercent (usedPercent : ℚ)) ++ "%", pair.1, pair.2⟩]
      | none => []
    let sevenRows :=
      match d.seven_day with
      | some sevenDay =>
        let usedPercent := jsRound sevenDay.utilization
        let pair := claudeResetPair tz lang now parseDate sevenDay.resets_at
        [⟨"Anthropic", maskedToken, "Claude Pro (7d)", intStr usedPercent ++ "%",
          intStr (calcRemainPercent (usedPercent : ℚ)) ++ "%", pair.1, pair.2⟩]
      | none => []
    fiveRows ++ sevenRows

/-- `queryAnthropicUsage` of `anthropic.ts`.  `refreshResult` and
`usageResult` are the settled outcomes of the refresh call and the usage
call. -/
def queryAnthropicUsage (tz : Nat → DateParts) (lang : Lang) (now : Nat)
    (parseDate : String → Option Nat)
    (refreshResult : HttpResult RefreshTokenBody)
    (usageResult : HttpResult ClaudeUsageResponse)
    (authData : Option AnthropicAuthData) : Option QueryResult :=
  match authData with
  | none => none
  | some a =>
    match a.access with
    | none => none
    | some access =>
      if access = "" then none
      else
        let accessToken :=
          if strTruthy a.refresh ∧ natTruthy a.expires ∧ a.expires.getD 0 < now then
            match refreshAccessToken refreshResult with
            | some newToken => newToken
            | none => access
          else access
        match fetchClaudeUsage usageResult with
        | none => some ⟨false, none, none, some "Anthropic: Failed to fetch usage data"⟩
        | some usage =>
          some ⟨true,
            some (formatClaudeUsage tz lang now parseDate (some usage) accessToken),
            some (anthropicExtractTableRows tz lang now parseDate (some usage) accessToken),
            none⟩

/-! ## `plugin/mystatus.ts` -/

/-- `collectResult` of `mystatus.ts`, over the accumulator triple
`(results, errors, tableRows)`. -/
def collectResult (result : Option QueryResult) (title : String)
    (acc : List String × List String × List TableRowData) :
    List String × List String × List TableRowData :=
  match result with
  | none => acc
  | some r =>
    if r.success then
      let results :=
        if strTruthy r.output then
          (if acc.1.length > 0 then acc.1 ++ [""] else acc.1) ++ [title, "", r.output.getD ""]
        else acc.1
      let rows :=
        match r.tableRows with
        | some trs => if trs.length > 0 then acc.2.2 ++ trs else acc.2.2
        | none => acc.2.2
      (results, acc.2.1, rows)
    else if strTruthy r.error then (acc.1, acc.2.1 ++ [r.error.getD ""], acc.2.2)
    else acc

/-- The collection loop of `execute` (step 4). -/
def collectAll (queries : List (String × Option QueryResult))
    (acc : List String × List String × List TableRowData) :
    List String × List String × List TableRowData :=
  queries.foldl (fun acc q => collectResult q.2 q.1 acc) acc

/-- JS `String.prototype.padEnd(w, " ")`. -/
def padEnd (s : String) (w : Nat) : String :=
  if s.length ≥ w then s else s ++ ⟨List.replicate (w - s.length) ' '⟩

/-- One column width: `Math.max(header.length, ...rows.map(len))`. -/
def colWidth (f : TableRowData → String) (lang : Lang) (rows : List TableRowData) : Nat :=
  (rows.map fun r => (f r).length).foldl max (f (tableHeader lang)).length

/-- `"-".repeat(n)`. -/
def dashes (n : Nat) : String := ⟨List.replicate n '-'⟩

/-- `renderTable` of `mystatus.ts`. -/
def renderTable (lang : Lang) (rows : List TableRowData) : String :=
  let wProvider := colWidth TableRowData.provider lang rows
  let wAccount := colWidth TableRowData.account lang rows
  let wPlan := colWidth TableRowData.plan lang rows
  let wUsed := colWidth TableRowData.used lang rows
  let wRemaining := colWidth TableRowData.remaining lang rows
  let wResetIn := colWidth TableRowData.resetIn lang rows
  let wResetDate := colWidth TableRowData.resetDate lang rows
  let headers := tableHeader lang
  let headerRow :=
    "|" ++ padEnd headers.provider wProvider ++ "|" ++ padEnd headers.account wAccount ++
    "|" ++ padEnd headers.plan wPlan ++ "|" ++ padEnd headers.used wUsed ++
    "|" ++ padEnd headers.remaining wRemaining ++ "|" ++ padEnd headers.resetIn wResetIn ++
    "|" ++ padEnd headers.resetDate wResetDate ++ "|"
  let separator :=
    "|" ++ dashes (wProvider + 1) ++ "|-" ++ dashes (wAccount + 1) ++ "|-" ++
    dashes (wPlan + 1) ++ "|-" ++ dashes (wUsed + 1) ++ "|-" ++ dashes (wRemaining + 1) ++
    "|-" ++ dashes (wResetIn + 1) ++ "|-" ++ dashes (wResetDate + 1) ++ "|"
  let dataRows := rows.map fun row =>
    "|" ++ padEnd row.provider wProvider ++ "|" ++ padEnd row.account wAccount ++
    "|" ++ padEnd row.plan wPlan ++ "|" ++ padEnd row.used wUsed ++
    "|" ++ padEnd row.remaining wRemaining ++ "|" ++ padEnd row.resetIn wResetIn ++
    "|" ++ padEnd row.resetDate wResetDate ++ "|"
  tTableTitle lang ++ "\n\n" ++ headerRow ++ "\n" ++ separator ++ "\n" ++ joinSep "\n" dataRows

/-- Steps 4–5 of `execute` in `mystatus.ts`: collect the settled adapter
results and render the aggregate output string. -/
def executeAggregate (lang : Lang) (queries : List (String × Option QueryResult)) : String :=
  let st := collectAll queries ([], [], [])
  let results := st.1
  let errors := st.2.1
  let tableRows := st.2.2
  if results.length = 0 ∧ errors.length = 0 then tNoAccounts lang
  else
    let output :=
      if tableRows.length > 0 then renderTable lang tableRows
      else if results.length > 0 then joinSep "\n" results
      else ""
    if errors.length > 0 then
      (if output ≠ "" then output ++ "\n\n" else output) ++
        tQueryFailed lang ++ joinSep "\n" errors
    else output

/-! ## Theorems -/

/-! ### Basic facts about the primitives -/

theorem jsClamp_eq_self {p : ℚ} (h0 : 0 ≤ p) (h1 : p ≤ 100) : jsClamp p = p := by
  unfold jsClamp
  rw [min_eq_right h1, max_eq_right h0]

theorem jsClamp_nonneg (p : ℚ) : 0 ≤ jsClamp p := le_max_left 0 _

theorem jsClamp_le_100 (p : ℚ) : jsClamp p ≤ 100 :=
  max_le (by norm_num) (min_le_left _ _)

theorem jsClamp_idem (p : ℚ) : jsClamp (jsClamp p) = jsClamp p :=
  jsClamp_eq_self (jsClamp_nonneg p) (jsClamp_le_100 p)

theorem jsRound_natCast (w : ℕ) : jsRound (w : ℚ) = w := by
  unfold jsRound
  rw [Int.floor_eq_iff]
  constructor <;> push_cast <;> linarith

theorem jsRound_le_of_le {q : ℚ} {w : ℕ} (h : q ≤ w) : jsRound q ≤ w := by
  calc jsRound q ≤ jsRound (w : ℚ) := Int.floor_le_floor (by linarith)
    _ = w := jsRound_natCast w

theorem filled_le_width {p : ℚ} {w : ℕ} (h0 : 0 ≤ p) (h1 : p ≤ 100) :
    (jsRound (p / 100 * w)).toNat ≤ w := by
  have hq : p / 100 * w ≤ (w : ℚ) := by
    have hw : (0:ℚ) ≤ (w : ℚ) := by positivity
    nlinarith
  exact Int.toNat_le.mpr (jsRound_le_of_le hq)

/-- **C8.** For all `remainPercent` in [0,100] and every width `w > 0`,
`createProgressBar` returns a string of exactly `w` characters, consisting of
`round(remainPercent/100*w)` solid-block characters followed by the remaining
count of light-block characters; out-of-range inputs are first clamped, so 0%
yields an all-empty and 100% an all-filled bar of length `w`. -/
theorem createProgressBar_spec (p : ℚ) (w : Nat) (hw : 0 < w) :
    ((createProgressBar p w).length = w ∧
      (0 ≤ p → p ≤ 100 →
        (jsRound (p / 100 * w)).toNat ≤ w ∧
        createProgressBar p w =
          ⟨List.replicate (jsRound (p / 100 * w)).toNat '█' ++
            List.replicate (w - (jsRound (p / 100 * w)).toNat) '░'⟩)) ∧
    createProgressBar p w = createProgressBar (jsClamp p) w ∧
    createProgressBar 0 w = ⟨List.replicate w '░'⟩ ∧
    createProgressBar 100 w = ⟨List.replicate w '█'⟩ := by
  have hclamp_fill : (jsRound (jsClamp p / 100 * w)).toNat ≤ w :=
    filled_le_width (jsClamp_nonneg p) (jsClamp_le_100 p)
  refine ⟨⟨?_, ?_⟩, ?_, ?_, ?_⟩
  · -- length is exactly w: the code clamps before rounding, so the filled
    -- count never exceeds the width
    unfold createProgressBar
    show (List.replicate _ '█' ++ List.replicate _ '░').length = w
    rw [List.length_append, List.length_replicate, List.length_replicate]
    omega
  · intro h0 h1
    refine ⟨filled_le_width h0 h1, ?_⟩
    unfold createProgressBar
    rw [jsClamp_eq_self h0 h1]
  · unfold createProgressBar
    rw [jsClamp_idem]
  · unfold createProgressBar
    have h1 : jsClamp 0 = 0 := jsClamp_eq_self le_rfl (by norm_num)
    have h2 : jsRound ((0:ℚ) / 100 * w) = 0 := by
      rw [zero_div, zero_mul]
      unfold jsRound
      rw [zero_add]
      norm_num
    dsimp only
    rw [h1, h2]
    simp
  · unfold createProgressBar
    have h1 : jsClamp 100 = 100 := jsClamp_eq_self (by norm_num) le_rfl
    have h2 : jsRound ((100:ℚ) / 100 * w) = w := by
      rw [div_self (by norm_num), one_mul]
      exact jsRound_natCast w
    dsimp only
    rw [h1, h2]
    simp

/-! ### Matcher lemmas -/

theorem wsThenParen_append_false (u v : List Char) (hne : u ≠ [])
    (hparen : ∀ c ∈ u, c ≠ '(')
    (hlast : ∀ c, u.getLast? = some c → isJsWs c = false) :
    wsThenParen (u ++ v) = false := by
  induction u with
  | nil => exact absurd rfl hne
  | cons c u' ih =>
    rw [List.cons_append, wsThenParen]
    rw [if_neg (hparen c (List.mem_cons_self c u'))]
    cases hws : isJsWs c with
    | false => simp
    | true =>
      rw [if_pos rfl]
      cases u' with
      | nil =>
        have : isJsWs c = false := hlast c rfl
        rw [this] at hws
        cases hws
      | cons x u'' =>
        exact ih (by simp) (fun d hd => hparen d (List.mem_cons_of_mem c hd))
          (fun d hd => hlast d (by rw [List.getLast?_cons_cons]; exact hd))

theorem firstNat_eq {β : Type} (f : Nat → Option β) (b : β) :
    ∀ (fuel start K : Nat), start ≤ K → K < start + fuel →
      (∀ j, start ≤ j → j < K → f j = none) → f K = some b →
      firstNat fuel start f = some b := by
  intro fuel
  induction fuel with
  | zero => intro start K h1 h2 _ _; omega
  | succ n ih =>
    intro start K h1 h2 hfail hK
    rw [firstNat]
    rcases Nat.eq_or_lt_of_le h1 with rfl | hlt
    · rw [hK]
    · rw [hfail start le_rfl hlt]
      exact ih (start + 1) K hlt (by omega) (fun j hj hjK => hfail j (by omega) hjK) hK

theorem firstNatDesc_of_some {β : Type} (f : Nat → Option β) (m : Nat) (b : β)
    (h : f m = some b) : firstNatDesc f m = some b := by
  cases m with
  | zero => rw [firstNatDesc, h]
  | succ w => rw [firstNatDesc, h]

theorem lazyGroup_shape (D rest : List Char) (hne : D ≠ [])
    (hparen : ∀ c ∈ D, c ≠ '(') (hdot : D.all dotOk = true)
    (hlast : ∀ c, D.getLast? = some c → isJsWs c = false) :
    lazyGroup (D ++ ' ' :: '(' :: rest) = some D := by
  have hlen : 1 ≤ D.length := List.length_pos.mpr hne
  unfold lazyGroup
  apply firstNat_eq _ _ _ _ D.length hlen
  · rw [List.length_append]
    simp only [List.length_cons]
    omega
  · intro j h1j hjD
    have hdropj : (D ++ ' ' :: '(' :: rest).drop j = D.drop j ++ ' ' :: '(' :: rest :=
      List.drop_append_of_le_length (Nat.le_of_lt hjD)
    have hu_ne : D.drop j ≠ [] := by
      intro hnil
      rw [List.drop_eq_nil_iff] at hnil
      omega
    have hu_last : (D.drop j).getLast? = D.getLast? := by
      conv_rhs => rw [← List.take_append_drop j D]
      rw [List.getLast?_append_of_ne_nil _ hu_ne]
    have hfalse : wsThenParen ((D ++ ' ' :: '(' :: rest).drop j) = false := by
      rw [hdropj]
      exact wsThenParen_append_false _ _ hu_ne
        (fun c hc => hparen c (List.mem_of_mem_drop hc))
        (fun c hc => hlast c (hu_last ▸ hc))
    simp only [hfalse, Bool.and_false, Bool.false_eq_true, if_false]
  · have htake : (D ++ ' ' :: '(' :: rest).take D.length = D := List.take_left D _
    have hdrop : (D ++ ' ' :: '(' :: rest).drop D.length = ' ' :: '(' :: rest :=
      List.drop_left D _
    simp only [htake, hdrop, hdot, Bool.true_and]
    have : wsThenParen (' ' :: '(' :: rest) = true := by
      rw [wsThenParen]
      norm_num [isJsWs]
      rw [wsThenParen]
      simp
    rw [this]
    simp

theorem afterLiteral_shape (D rest : List Char) (hne : D ≠ [])
    (hparen : ∀ c ∈ D, c ≠ '(') (hdot : D.all dotOk = true)
    (hhead : ∀ c, D.head? = some c → isJsWs c = false)
    (hlast : ∀ c, D.getLast? = some c → isJsWs c = false) :
    afterLiteral (' ' :: (D ++ ' ' :: '(' :: rest)) = some D := by
  obtain ⟨d0, D', rfl⟩ : ∃ d0 D', D = d0 :: D' := by
    cases D with
    | nil => exact absurd rfl hne
    | cons a l => exact ⟨a, l, rfl⟩
  have hd0 : isJsWs d0 = false := hhead d0 rfl
  unfold afterLiteral
  have hrun : ((' ' :: (d0 :: D' ++ ' ' :: '(' :: rest)).takeWhile isJsWs).length = 1 := by
    rw [List.takeWhile_cons_of_pos (by norm_num [isJsWs])]
    rw [List.cons_append, List.takeWhile_cons_of_neg (by simp [hd0])]
    rfl
  rw [hrun]
  apply firstNatDesc_of_some
  rw [List.drop_succ_cons, List.drop_zero]
  exact lazyGroup_shape _ _ hne hparen hdot hlast

theorem scanMatch_shape (D rest : List Char) (hne : D ≠ [])
    (hparen : ∀ c ∈ D, c ≠ '(') (hdot : D.all dotOk = true)
    (hhead : ∀ c, D.head? = some c → isJsWs c = false)
    (hlast : ∀ c, D.getLast? = some c → isJsWs c = false) :
    scanMatch (litResetsIn ++ ' ' :: (D ++ ' ' :: '(' :: rest)) = some D := by
  have hafter := afterLiteral_shape D rest hne hparen hdot hhead hlast
  show scanMatch ('R' :: 'e' :: 's' :: 'e' :: 't' :: 's' :: ' ' :: 'i' :: 'n' :: ':' ::
    (' ' :: (D ++ ' ' :: '(' :: rest))) = some D
  rw [scanMatch]
  have hpre : litResetsIn.isPrefixOf ('R' :: 'e' :: 's' :: 'e' :: 't' :: 's' :: ' ' :: 'i' ::
      'n' :: ':' :: (' ' :: (D ++ ' ' :: '(' :: rest))) = true := by
    simp [litResetsIn, List.isPrefixOf]
  rw [if_pos hpre]
  have hdroplit : ('R' :: 'e' :: 's' :: 'e' :: 't' :: 's' :: ' ' :: 'i' :: 'n' :: ':' ::
      (' ' :: (D ++ ' ' :: '(' :: rest))).drop litResetsIn.length =
      ' ' :: (D ++ ' ' :: '(' :: rest) := by
    show List.drop 10 _ = _
    simp [List.drop_succ_cons]
  rw [hdroplit, hafter]

theorem jsTrim_eq_self (D : List Char)
    (hhead : ∀ c, D.head? = some c → isJsWs c = false)
    (hlast : ∀ c, D.getLast? = some c → isJsWs c = false) :
    jsTrim D = D := by
  cases D with
  | nil => rfl
  | cons d0 D' =>
    unfold jsTrim
    rw [List.dropWhile_cons_of_neg (by simp [hhead d0 rfl])]
    cases hr : (d0 :: D').reverse with
    | nil =>
      have := congrArg List.length hr
      simp at this
    | cons c t =>
      have hcl : (d0 :: D').getLast? = some c := by
        rw [← List.head?_reverse, hr, List.head?_cons]
      rw [List.dropWhile_cons_of_neg (by simp [hlast c hcl]), ← hr,
        List.reverse_reverse]

theorem decDigit_isDigit : ∀ d < 10, isDigitChar (decDigit d) := by decide

theorem natDigitsAux_spec : ∀ fuel n, n < fuel →
    natDigitsAux fuel n ≠ [] ∧ ∀ c ∈ natDigitsAux fuel n, isDigitChar c := by
  intro fuel
  induction fuel with
  | zero => intro n hn; omega
  | succ m ih =>
    intro n hn
    rw [natDigitsAux]
    by_cases h10 : n < 10
    · rw [if_pos h10]
      refine ⟨by simp, ?_⟩
      intro c hc
      rw [List.mem_singleton] at hc
      subst hc
      exact decDigit_isDigit n h10
    · rw [if_neg h10]
      have hdiv : n / 10 < n := Nat.div_lt_self (by omega) (by omega)
      have hrec := ih (n / 10) (by omega)
      refine ⟨by simp, ?_⟩
      intro c hc
      rcases List.mem_append.mp hc with h | h
      · exact hrec.2 c h
      · rw [List.mem_singleton] at h
        subst h
        exact decDigit_isDigit _ (Nat.mod_lt _ (by omega))

theorem natStr_ne_nil (n : Nat) : (natStr n).data ≠ [] :=
  (natDigitsAux_spec (n + 1) n (by omega)).1

theorem natStr_digits (n : Nat) : ∀ c ∈ (natStr n).data, isDigitChar c :=
  (natDigitsAux_spec (n + 1) n (by omega)).2

theorem char_ne_of_toNat {c d : Char} (h : c.toNat ≠ d.toNat) : c ≠ d :=
  fun e => h (by rw [e])

theorem isDigitChar_not_ws {c : Char} (h : isDigitChar c) : isJsWs c = false := by
  obtain ⟨h1, h2⟩ := h
  have hs : c ≠ ' ' := char_ne_of_toNat (by change _ ≠ 32; omega)
  have ht : c ≠ '\t' := char_ne_of_toNat (by change _ ≠ 9; omega)
  have hn : c ≠ '\n' := char_ne_of_toNat (by change _ ≠ 10; omega)
  have hr : c ≠ '\r' := char_ne_of_toNat (by change _ ≠ 13; omega)
  have hv : c ≠ '\x0b' := char_ne_of_toNat (by change _ ≠ 11; omega)
  have hf : c ≠ '\x0c' := char_ne_of_toNat (by change _ ≠ 12; omega)
  simp [isJsWs, hs, ht, hn, hr, hv, hf]

theorem isDigitChar_tame {c : Char} (h : isDigitChar c) :
    c ≠ '(' ∧ dotOk c = true := by
  obtain ⟨h1, h2⟩ := h
  have hp : c ≠ '(' := char_ne_of_toNat (by change _ ≠ 40; omega)
  have hn : c ≠ '\n' := char_ne_of_toNat (by change _ ≠ 10; omega)
  have hr : c ≠ '\r' := char_ne_of_toNat (by change _ ≠ 13; omega)
  exact ⟨hp, by simp [dotOk, hn, hr]⟩

/-- The shape and character facts of one `"en"` duration part
`natStr n ++ u` with unit suffix `u ∈ {"d", "h", "m"}`. -/
theorem enPart_facts (n : Nat) (u : Char) (hu : u = 'd' ∨ u = 'h' ∨ u = 'm') :
    (natStr n ++ (⟨[u]⟩ : String)).data ≠ [] ∧
    (∀ c ∈ (natStr n ++ (⟨[u]⟩ : String)).data, c ≠ '(' ∧ dotOk c = true) ∧
    (∀ c, (natStr n ++ (⟨[u]⟩ : String)).data.head? = some c → isJsWs c = false) ∧
    (∀ c, (natStr n ++ (⟨[u]⟩ : String)).data.getLast? = some c → isJsWs c = false) := by
  have hdata : (natStr n ++ (⟨[u]⟩ : String)).data = (natStr n).data ++ [u] := rfl
  have hu_tame : u ≠ '(' ∧ dotOk u = true ∧ isJsWs u = false := by
    rcases hu with rfl | rfl | rfl <;> exact ⟨by decide, by decide, by decide⟩
  rw [hdata]
  refine ⟨by simp, ?_, ?_, ?_⟩
  · intro c hc
    rcases List.mem_append.mp hc with h | h
    · exact isDigitChar_tame (natStr_digits n c h)
    · rw [List.mem_singleton] at h
      subst h
      exact ⟨hu_tame.1, hu_tame.2.1⟩
  · intro c hc
    cases hd : (natStr n).data with
    | nil => exact absurd hd (natStr_ne_nil n)
    | cons a l =>
      rw [hd, List.cons_append, List.head?_cons, Option.some_inj] at hc
      subst hc
      exact isDigitChar_not_ws (natStr_digits n a (by rw [hd]; exact List.mem_cons_self _ _))
  · intro c hc
    rw [List.getLast?_concat, Option.some_inj] at hc
    subst hc
    exact hu_tame.2.2

/-! ### `joinSep` facts -/

theorem joinSep_foldl_data (sep : String) :
    ∀ (ps : List String) (acc : String),
      ∃ t : List Char, (ps.foldl (fun a q => a ++ sep ++ q) acc).data = acc.data ++ t := by
  intro ps
  induction ps with
  | nil => intro acc; exact ⟨[], by simp⟩
  | cons q qs ih =>
    intro acc
    obtain ⟨t, ht⟩ := ih (acc ++ sep ++ q)
    refine ⟨sep.data ++ q.data ++ t, ?_⟩
    rw [List.foldl_cons, ht]
    simp [List.append_assoc]

theorem joinSep_foldl_getLast (sep : String) :
    ∀ (ps : List String) (acc : String) (b : String), ps.getLast? = some b →
      ∃ t : List Char, (ps.foldl (fun a q => a ++ sep ++ q) acc).data = t ++ b.data := by
  intro ps
  rcases List.eq_nil_or_concat ps with rfl | ⟨L, b', rfl⟩
  · intro acc b hb
    simp at hb
  · intro acc b hb
    rw [List.concat_eq_append, List.getLast?_concat, Option.some_inj] at hb
    subst hb
    refine ⟨(L.foldl (fun a q => a ++ sep ++ q) acc).data ++ sep.data, ?_⟩
    rw [List.concat_eq_append, List.foldl_append]
    simp [List.append_assoc]

theorem joinSep_foldl_mem (sep : String) :
    ∀ (ps : List String) (acc : String) (c : Char),
      c ∈ (ps.foldl (fun a q => a ++ sep ++ q) acc).data →
      c ∈ acc.data ∨ c ∈ sep.data ∨ ∃ p ∈ ps, c ∈ p.data := by
  intro ps
  induction ps with
  | nil => intro acc c hc; exact Or.inl hc
  | cons q qs ih =>
    intro acc c hc
    rw [List.foldl_cons] at hc
    rcases ih (acc ++ sep ++ q) c hc with h | h | ⟨p, hp, hcp⟩
    · simp only [String.data_append, List.mem_append] at h
      rcases h with (h | h) | h
      · exact Or.inl h
      · exact Or.inr (Or.inl h)
      · exact Or.inr (Or.inr ⟨q, List.mem_cons_self _ _, h⟩)
    · exact Or.inr (Or.inl h)
    · exact Or.inr (Or.inr ⟨p, List.mem_cons_of_mem _ hp, hcp⟩)

/-! ### Goodness of `"en"` duration strings -/

theorem durationParts_mem (lang : Lang) (secs : Nat) :
    ∀ p ∈ durationParts lang secs,
      p = tDays lang (secs / 86400) ∨ p = tHours lang (secs % 86400 / 3600) ∨
        p = tMinutes lang (secs % 3600 / 60) := by
  intro p hp
  dsimp only [durationParts] at hp
  split_ifs at hp <;> simp at hp <;> tauto

theorem durationParts_ne_nil (lang : Lang) (secs : Nat) :
    durationParts lang secs ≠ [] := by
  dsimp only [durationParts]
  split_ifs <;> simp_all

/-- Every `"en"` part is a digit string followed by a unit letter. -/
theorem enPart_of_mem (secs : Nat) (p : String) (hp : p ∈ durationParts .en secs) :
    ∃ n u, (u = 'd' ∨ u = 'h' ∨ u = 'm') ∧ p = natStr n ++ (⟨[u]⟩ : String) := by
  rcases durationParts_mem .en secs p hp with h | h | h
  · exact ⟨secs / 86400, 'd', Or.inl rfl, h⟩
  · exact ⟨secs % 86400 / 3600, 'h', Or.inr (Or.inl rfl), h⟩
  · exact ⟨secs % 3600 / 60, 'm', Or.inr (Or.inr rfl), h⟩

theorem formatDurationEn_good (secs : Nat) :
    (formatDuration .en secs).data ≠ [] ∧
    (∀ c ∈ (formatDuration .en secs).data, c ≠ '(' ∧ dotOk c = true) ∧
    (∀ c, (formatDuration .en secs).data.head? = some c → isJsWs c = false) ∧
    (∀ c, (formatDuration .en secs).data.getLast? = some c → isJsWs c = false) := by
  obtain ⟨p, ps, hps⟩ : ∃ p ps, durationParts .en secs = p :: ps := by
    cases h : durationParts .en secs with
    | nil => exact absurd h (durationParts_ne_nil .en secs)
    | cons a l => exact ⟨a, l, rfl⟩
  have hform : formatDuration .en secs = ps.foldl (fun a q => a ++ " " ++ q) p := by
    unfold formatDuration
    rw [hps]
    rfl
  obtain ⟨np, up, hup, hpeq⟩ := enPart_of_mem secs p (hps ▸ List.mem_cons_self _ _)
  have hpf := enPart_facts np up hup
  rw [← hpeq] at hpf
  obtain ⟨hpne, hptame, hphead, hplast⟩ := hpf
  obtain ⟨t, ht⟩ := joinSep_foldl_data " " ps p
  rw [hform]
  refine ⟨?_, ?_, ?_, ?_⟩
  · rw [ht]
    intro h
    exact hpne (List.append_eq_nil.mp h).1
  · intro c hc
    rcases joinSep_foldl_mem " " ps p c hc with h | h | ⟨q, hq, hcq⟩
    · exact hptame c h
    · have hsp : c = ' ' := by simpa using h
      subst hsp
      exact ⟨by decide, by decide⟩
    · obtain ⟨nq, uq, huq, hqeq⟩ := enPart_of_mem secs q (hps ▸ List.mem_cons_of_mem _ hq)
      have hqf := enPart_facts nq uq huq
      rw [← hqeq] at hqf
      exact hqf.2.1 c hcq
  · intro c hc
    rw [ht] at hc
    cases hd : p.data with
    | nil => exact absurd hd hpne
    | cons a l =>
      rw [hd, List.cons_append, List.head?_cons, Option.some_inj] at hc
      subst hc
      exact hphead a (by rw [hd]; rfl)
  · cases ps with
    | nil =>
      intro c hc
      exact hplast c (by simpa using hc)
    | cons q0 qs =>
      intro c hc
      obtain ⟨b, hb⟩ := Option.isSome_iff_exists.mp
        (List.getLast?_isSome.mpr (by simp : (q0 :: qs) ≠ []))
      obtain ⟨t2, ht2⟩ := joinSep_foldl_getLast " " (q0 :: qs) p b hb
      have hbmem : b ∈ q0 :: qs := List.mem_of_getLast?_eq_some hb
      obtain ⟨nb, ub, hub, hbeq⟩ := enPart_of_mem secs b (hps ▸ List.mem_cons_of_mem _ hbmem)
      have hbf := enPart_facts nb ub hub
      rw [← hbeq] at hbf
      rw [ht2, List.getLast?_append_of_ne_nil _ hbf.1] at hc
      exact hbf.2.2.2 c hc

/-- **C10.** For every reset timestamp strictly in the future and the `"en"`
locale, `extractCountdown` applied to `formatResetTime(timestamp)` returns
exactly `formatDuration(floor((timestamp - now)/1000))`: the regex that strips
`"Resets in: ... (at ...)"` down to the bare countdown recovers precisely the
duration string, so the Anthropic and MiniMax reset-countdown column equals
the plain duration formatting of the remaining seconds. -/
theorem extractCountdown_formatResetTime (tz : Nat → DateParts) (now ts : Nat)
    (h : now < ts) :
    extractCountdown (formatResetTime tz .en now ts false) =
      formatDuration .en ((ts - now) / 1000) := by
  obtain ⟨hne, htame, hhead, hlast⟩ := formatDurationEn_good ((ts - now) / 1000)
  have hfrt : formatResetTime tz .en now ts false =
      "Resets in: " ++ formatDuration .en ((ts - now) / 1000) ++ " (at " ++
        pad2 (tz ts).hours ++ ":" ++ pad2 (tz ts).minutes ++ ":" ++ pad2 (tz ts).seconds ++
        " " ++ pad2 (tz ts).day ++ "/" ++ pad2 (tz ts).month ++ "/" ++
        natStr (tz ts).year ++ ")" := by
    unfold formatResetTime
    rw [if_neg (by omega)]
    rfl
  have h1 : ("Resets in: " : String).data = litResetsIn ++ [' '] := rfl
  have h2 : (" (at " : String).data = ' ' :: '(' :: 'a' :: 't' :: [' '] := rfl
  have hdata : (formatResetTime tz .en now ts false).data =
      litResetsIn ++ ' ' :: ((formatDuration .en ((ts - now) / 1000)).data ++
        ' ' :: '(' :: ('a' :: 't' :: ' ' ::
          ((pad2 (tz ts).hours).data ++ (":" : String).data ++ (pad2 (tz ts).minutes).data ++
            (":" : String).data ++ (pad2 (tz ts).seconds).data ++ (" " : String).data ++
            (pad2 (tz ts).day).data ++ ("/" : String).data ++ (pad2 (tz ts).month).data ++
            ("/" : String).data ++ (natStr (tz ts).year).data ++ (")" : String).data))) := by
    rw [hfrt]
    simp only [String.data_append, h1, h2]
    simp [litResetsIn, List.append_assoc]
  unfold extractCountdown
  rw [hdata,
    scanMatch_shape _ _ hne (fun c hc => (htame c hc).1)
      (List.all_eq_true.mpr fun c hc => (htame c hc).2) hhead hlast]
  show (⟨jsTrim (formatDuration .en ((ts - now) / 1000)).data⟩ : String) = _
  rw [jsTrim_eq_self _ hhead hlast]

/-- **C2.** For every MiniMax response whose first per-model entry has
`current_interval_total_count = 5000` and `current_interval_usage_count =
1000`, the normalized row has `used = "80%"` and `remaining = "20%"`: for
this provider the row's `used` field shows the remaining-token fraction
rounded to the nearest integer and `remaining` shows the used-token
fraction. -/
theorem minimax_row_inversion (tz : Nat → DateParts) (lang : Lang) (now : Nat)
    (resp : MiniMaxRemainsResponse) (apiKey : String)
    (entry : MiniMaxModelRemain) (rest : List MiniMaxModelRemain)
    (hm : resp.model_remains = some (entry :: rest))
    (ht : entry.current_interval_total_count = 5000)
    (hu : entry.current_interval_usage_count = 1000) :
    (minimaxExtractTableRow tz lang now resp apiKey).used = "80%" ∧
    (minimaxExtractTableRow tz lang now resp apiKey).remaining = "20%" := by
  have hbind : resp.model_remains.bind List.head? = some entry := by rw [hm]; rfl
  unfold minimaxExtractTableRow
  rw [hbind]
  dsimp only
  rw [ht, hu]
  have hup : (if (5000 : Int) > 0 then ((1000 : Int) : ℚ) / ((5000 : Int) : ℚ) * 100 else 0)
      = 20 := by norm_num
  rw [hup]
  have hr80 : jsRound (100 - 20 : ℚ) = 80 := by
    unfold jsRound
    rw [Int.floor_eq_iff]
    constructor <;> norm_num
  have hr20 : jsRound (20 : ℚ) = 20 := by
    unfold jsRound
    rw [Int.floor_eq_iff]
    constructor <;> norm_num
  have h80 : intStr 80 ++ "%" = "80%" := by decide
  have h20 : intStr 20 ++ "%" = "20%" := by decide
  split_ifs <;> exact ⟨by rw [hr80]; exact h80, by rw [hr20]; exact h20⟩

theorem minimax_row_inversion_witness :
    (minimaxExtractTableRow tzFix .en 0
        ⟨some [⟨0, 0, 0, 5000, 1000, "MiniMax-M2"⟩], none⟩ "sk-key").used = "80%" ∧
    (minimaxExtractTableRow tzFix .en 0
        ⟨some [⟨0, 0, 0, 5000, 1000, "MiniMax-M2"⟩], none⟩ "sk-key").remaining = "20%" :=
  minimax_row_inversion tzFix .en 0 _ "sk-key" ⟨0, 0, 0, 5000, 1000, "MiniMax-M2"⟩ []
    rfl rfl rfl

/-- **C7.** For every MiniMax credential record that is present but lacks a
static API key (field absent or empty), `queryMiniMaxUsage` returns a failure
`QueryResult` carrying the needs-login guidance message, never `null`. -/
theorem queryMiniMaxUsage_needLogin (tz : Nat → DateParts) (lang : Lang) (now : Nat)
    (fetchResult : Except String MiniMaxRemainsResponse) (key : Option String)
    (hk : key = none ∨ key = some "") :
    queryMiniMaxUsage tz lang now fetchResult (some key) =
      some ⟨false, none, none, some (tMinimaxNeedLogin lang)⟩ ∧
    queryMiniMaxUsage tz lang now fetchResult (some key) ≠ none := by
  have heq : queryMiniMaxUsage tz lang now fetchResult (some key) =
      some ⟨false, none, none, some (tMinimaxNeedLogin lang)⟩ := by
    unfold queryMiniMaxUsage
    rcases hk with rfl | rfl <;> rfl
  exact ⟨heq, by rw [heq]; simp⟩

theorem queryMiniMaxUsage_needLogin_witness :
    queryMiniMaxUsage tzFix .en 0 (.error "transport") (some none) =
      some ⟨false, none, none, some (tMinimaxNeedLogin .en)⟩ ∧
    queryMiniMaxUsage tzFix .en 0 (.error "transport") (some none) ≠ none :=
  queryMiniMaxUsage_needLogin tzFix .en 0 (.error "transport") none (Or.inl rfl)

/-! ## Claims about the Anthropic adapter -/

theorem jsRound_int (z : ℤ) : jsRound (z : ℚ) = z := by
  unfold jsRound
  rw [Int.floor_eq_iff]
  constructor <;> [skip; push_cast] <;> linarith [show ((z : ℚ) : ℚ) = (z : ℚ) from rfl]

/-- **C6.** For every Anthropic usage response with a `five_hour` window at
utilization 25 and a `seven_day` window at utilization 40, the adapter
produces exactly two normalized rows, with plan labels `"Claude Pro (5h)"`
and `"Claude Pro (7d)"` in that order, both with provider `"Anthropic"`, and
used percentages `"25%"` and `"40%"`. -/
theorem anthropic_two_rows (tz : Nat → DateParts) (lang : Lang) (now : Nat)
    (parseDate : String → Option Nat) (d : ClaudeUsageResponse) (tok : String)
    (ra1 ra2 : Option String)
    (h5 : d.five_hour = some ⟨25, ra1⟩) (h7 : d.seven_day = some ⟨40, ra2⟩) :
    ∃ r1 r2, anthropicExtractTableRows tz lang now parseDate (some d) tok = [r1, r2] ∧
      r1.provider = "Anthropic" ∧ r1.plan = "Claude Pro (5h)" ∧ r1.used = "25%" ∧
      r2.provider = "Anthropic" ∧ r2.plan = "Claude Pro (7d)" ∧ r2.used = "40%" := by
  have hr25 : jsRound (25 : ℚ) = 25 := by
    have := jsRound_int 25
    norm_num at this
    exact this
  have hr40 : jsRound (40 : ℚ) = 40 := by
    have := jsRound_int 40
    norm_num at this
    exact this
  have hrows : anthropicExtractTableRows tz lang now parseDate (some d) tok =
      [⟨"Anthropic", maskString tok 4, "Claude Pro (5h)", intStr (jsRound (25 : ℚ)) ++ "%",
        intStr (calcRemainPercent ((jsRound (25 : ℚ) : ℤ) : ℚ)) ++ "%",
        (claudeResetPair tz lang now parseDate ra1).1,
        (claudeResetPair tz lang now parseDate ra1).2⟩,
       ⟨"Anthropic", maskString tok 4, "Claude Pro (7d)", intStr (jsRound (40 : ℚ)) ++ "%",
        intStr (calcRemainPercent ((jsRound (40 : ℚ) : ℤ) : ℚ)) ++ "%",
        (claudeResetPair tz lang now parseDate ra2).1,
        (claudeResetPair tz lang now parseDate ra2).2⟩] := by
    unfold anthropicExtractTableRows
    dsimp only
    rw [h5, h7]
    rfl
  refine ⟨_, _, hrows, rfl, rfl, ?_, rfl, rfl, ?_⟩
  · show intStr (jsRound (25 : ℚ)) ++ "%" = "25%"
    rw [hr25]
    decide
  · show intStr (jsRound (40 : ℚ)) ++ "%" = "40%"
    rw [hr40]
    decide

theorem anthropic_two_rows_witness :
    ∃ r1 r2,
      anthropicExtractTableRows tzFix .en 0 (fun _ => none)
          (some ⟨some ⟨25, none⟩, some ⟨40, none⟩, none⟩) "sk-ant-token" = [r1, r2] ∧
      r1.provider = "Anthropic" ∧ r1.plan = "Claude Pro (5h)" ∧ r1.used = "25%" ∧
      r2.provider = "Anthropic" ∧ r2.plan = "Claude Pro (7d)" ∧ r2.used = "40%" :=
  anthropic_two_rows tzFix .en 0 (fun _ => none) ⟨some ⟨25, none⟩, some ⟨40, none⟩, none⟩
    "sk-ant-token" none none rfl rfl

/-- **C1 (counterexample).** With a valid access token and a usage call that
succeeds at the transport level but returns a non-2xx response,
`queryAnthropicUsage` returns the generic failure `QueryResult` — not, as the
claim states, a success result with empty rows and "no quota data" text. -/
theorem anthropic_non2xx_counterexample :
    queryAnthropicUsage tzFix .en 0 (fun _ => none) (.fail "refresh failed")
        (.notOk 500 "server error") (some ⟨some "token", none, none⟩) =
      some ⟨false, none, none, some "Anthropic: Failed to fetch usage data"⟩ ∧
    ¬ ∃ q, queryAnthropicUsage tzFix .en 0 (fun _ => none) (.fail "refresh failed")
        (.notOk 500 "server error") (some ⟨some "token", none, none⟩) = some q ∧
        q.success = true := by
  have heq : queryAnthropicUsage tzFix .en 0 (fun _ => none) (.fail "refresh failed")
      (.notOk 500 "server error") (some ⟨some "token", none, none⟩) =
      some ⟨false, none, none, some "Anthropic: Failed to fetch usage data"⟩ := by decide
  refine ⟨heq, ?_⟩
  rintro ⟨q, hq, hs⟩
  rw [heq] at hq
  cases hq
  cases hs

/-- **C1 (amended).** Both a transport-level failure and a non-2xx response
of the usage call make `fetchClaudeUsage` yield no data object, and
`queryAnthropicUsage` turns any missing data object into the same generic
`"Anthropic: Failed to fetch usage data"` failure `QueryResult`; the
"no quota data" success text of `formatClaudeUsage` is not produced through
`queryAnthropicUsage` on either path. -/
theorem queryAnthropicUsage_fetch_failure (tz : Nat → DateParts) (lang : Lang)
    (now : Nat) (parseDate : String → Option Nat)
    (refreshResult : HttpResult RefreshTokenBody)
    (usageResult : HttpResult ClaudeUsageResponse)
    (a : AnthropicAuthData) (access : String)
    (ha : a.access = some access) (hne : access ≠ "")
    (hu : (∃ msg, usageResult = .fail msg) ∨ ∃ st body, usageResult = .notOk st body) :
    fetchClaudeUsage usageResult = none ∧
    queryAnthropicUsage tz lang now parseDate refreshResult usageResult (some a) =
      some ⟨false, none, none, some "Anthropic: Failed to fetch usage data"⟩ := by
  have hfetch : fetchClaudeUsage usageResult = none := by
    rcases hu with ⟨msg, rfl⟩ | ⟨st, body, rfl⟩ <;> rfl
  refine ⟨hfetch, ?_⟩
  simp only [queryAnthropicUsage]
  rw [ha]
  dsimp only
  rw [if_neg hne]
  simp only [hfetch]

theorem queryAnthropicUsage_fetch_failure_witness :
    fetchClaudeUsage (HttpResult.fail "network down" : HttpResult ClaudeUsageResponse) = none ∧
    queryAnthropicUsage tzFix .en 0 (fun _ => none) (.ok ⟨some "newtok"⟩)
        (.fail "network down") (some ⟨some "token", none, none⟩) =
      some ⟨false, none, none, some "Anthropic: Failed to fetch usage data"⟩ :=
  queryAnthropicUsage_fetch_failure tzFix .en 0 (fun _ => none) (.ok ⟨some "newtok"⟩)
    (.fail "network down") ⟨some "token", none, none⟩ "token" rfl (by decide)
    (Or.inl ⟨"network down", rfl⟩)

/-! ## Claims about the OpenAI adapter -/

/-- A failure result with a truthy error string only appends that string to
the error accumulator; legacy results and rows are untouched. -/
theorem collectResult_failure_appends (r : QueryResult) (title : String)
    (acc : List String × List String × List TableRowData)
    (hs : r.success = false) (he : strTruthy r.error = true) :
    collectResult (some r) title acc = (acc.1, acc.2.1 ++ [r.error.getD ""], acc.2.2) := by
  unfold collectResult
  dsimp only
  rw [hs]
  simp only [Bool.false_eq_true, if_false, he, if_true]

/-- **C3 (counterexample).** A credential of type `"oauth"` with an access
token and `expires = 0` — an epoch-millisecond value in the past relative to
`now = 1` — does **not** produce the expired-token failure: the JS truthiness
guard `authData.expires &&` skips the expiry check for the value `0`, and the
adapter proceeds to the network call and succeeds. -/
theorem openai_expired_zero_counterexample :
    queryOpenAIUsage tzFix .en 1 (fun _ => none) (.ok ⟨"plus", none⟩)
        (some ⟨"oauth", some "tok", none, some 0⟩) ≠
      some ⟨false, none, none, some (tTokenExpired .en)⟩ ∧
    (queryOpenAIUsage tzFix .en 1 (fun _ => none) (.ok ⟨"plus", none⟩)
        (some ⟨"oauth", some "tok", none, some 0⟩)).map QueryResult.success = some true := by
  constructor <;> decide

/-- **C3 (amended).** For every OpenAI credential record of type `"oauth"`
with a truthy access token whose `expires` value is **nonzero** and in the
past, `queryOpenAIUsage` returns the expired-token failure without performing
any network call (the result is the same for every fetch outcome), and via
`collectResult` this failure only appends an error line, leaving other
providers' legacy output and rows untouched. -/
theorem queryOpenAIUsage_expired (tz : Nat → DateParts) (lang : Lang) (now : Nat)
    (getEmail : String → Option String) (fetchResult : HttpResult OpenAIUsageResponse)
    (a : OpenAIAuthData) (e : Nat)
    (htype : a.type = "oauth") (hacc : strTruthy a.access = true)
    (he : a.expires = some e) (hne : e ≠ 0) (hpast : e < now) :
    queryOpenAIUsage tz lang now getEmail fetchResult (some a) =
      some ⟨false, none, none, some (tTokenExpired lang)⟩ ∧
    ∀ (title : String) (acc : List String × List String × List TableRowData),
      collectResult (some ⟨false, none, none, some (tTokenExpired lang)⟩) title acc =
        (acc.1, acc.2.1 ++ [tTokenExpired lang], acc.2.2) := by
  constructor
  · simp only [queryOpenAIUsage]
    rw [htype]
    rw [if_neg (by simp)]
    rw [if_neg (by simp [hacc])]
    have hexp : oauthExpired a.expires now = true := by
      rw [he]
      simp [oauthExpired, hne, hpast]
    rw [hexp]
    simp
  · intro title acc
    have htruthy : strTruthy (some (tTokenExpired lang)) = true := by
      cases lang <;> decide
    exact collectResult_failure_appends ⟨false, none, none, some (tTokenExpired lang)⟩
      title acc rfl htruthy

theorem queryOpenAIUsage_expired_witness :
    (queryOpenAIUsage tzFix .en 10 (fun _ => none) (.ok ⟨"plus", none⟩)
        (some ⟨"oauth", some "tok", none, some 5⟩) =
      some ⟨false, none, none, some (tTokenExpired .en)⟩) ∧
    ∀ (title : String) (acc : List String × List String × List TableRowData),
      collectResult (some ⟨false, none, none, some (tTokenExpired .en)⟩) title acc =
        (acc.1, acc.2.1 ++ [tTokenExpired .en], acc.2.2) :=
  queryOpenAIUsage_expired tzFix .en 10 (fun _ => none) (.ok ⟨"plus", none⟩)
    ⟨"oauth", some "tok", none, some 5⟩ 5 rfl (by decide) rfl (by decide) (by decide)

/-- **C5.** For every successful OpenAI usage response containing both a
primary and a secondary rate-limit window, `queryOpenAIUsage` produces
exactly one normalized table row, derived from the primary window only (the
same row results when the secondary window is stripped from the response),
while the secondary window appears in the legacy text lines. -/
theorem openai_primary_only_row (tz : Nat → DateParts) (lang : Lang) (now : Nat)
    (getEmail : String → Option String) (usage : OpenAIUsageResponse)
    (rl : OpenAIRateLimit) (pw sw : RateLimitWindow) (tok : String) (a : OpenAIAuthData)
    (hrl : usage.rate_limit = some rl) (hpw : rl.primary_window = some pw)
    (hsw : rl.secondary_window = some sw)
    (htype : a.type = "oauth") (htok : a.access = some tok) (htokne : tok ≠ "")
    (hexp : oauthExpired a.expires now = false) :
    (∃ row, queryOpenAIUsage tz lang now getEmail (.ok usage) (some a) =
        some ⟨true, some (formatOpenAIUsage lang usage (getEmail tok)), some [row], none⟩ ∧
      openaiExtractTableRow tz lang now usage (getEmail tok) = some row ∧
      openaiExtractTableRow tz lang now
        ⟨usage.plan_type, some ⟨rl.limit_reached, some pw, none⟩⟩ (getEmail tok) = some row) ∧
    formatOpenAIUsageLines lang usage (getEmail tok) =
      [tAccount lang ++ "        " ++ openaiAccountDisplay lang (getEmail tok) ++ " (" ++
        usage.plan_type ++ ")", ""] ++ formatWindow lang pw ++ ("" :: formatWindow lang sw) ++
        (if rl.limit_reached then ["", tLimitReached lang] else []) := by
  have hbind : usage.rate_limit.bind OpenAIRateLimit.primary_window = some pw := by
    rw [hrl]
    simpa using hpw
  have hrow : openaiExtractTableRow tz lang now usage (getEmail tok) =
      some ⟨"OpenAI", openaiAccountDisplay lang (getEmail tok), usage.plan_type,
        intStr pw.used_percent ++ "%",
        intStr (calcRemainPercent (pw.used_percent : ℚ)) ++ "%",
        (if pw.reset_after_seconds > 0 then formatDuration lang pw.reset_after_seconds
          else "-"),
        (if pw.reset_after_seconds > 0 then
          (if now < now + pw.reset_after_seconds * 1000 then
            formatResetTime tz lang now (now + pw.reset_after_seconds * 1000) true
          else "-")
        else "-")⟩ := by
    unfold openaiExtractTableRow
    rw [hbind]
  have hrow' : openaiExtractTableRow tz lang now
      ⟨usage.plan_type, some ⟨rl.limit_reached, some pw, none⟩⟩ (getEmail tok) =
      openaiExtractTableRow tz lang now usage (getEmail tok) := by
    rw [hrow]
    unfold openaiExtractTableRow
    rfl
  constructor
  · refine ⟨_, ?_, hrow, hrow'.trans hrow⟩
    simp only [queryOpenAIUsage]
    rw [htype]
    rw [if_neg (by simp)]
    rw [if_neg (by simp [strTruthy, htok, htokne])]
    rw [hexp]
    simp only [Bool.false_eq_true, if_false, htok, Option.getD_some, hrow]
  · unfold formatOpenAIUsageLines
    rw [hrl]
    dsimp only
    rw [hpw, hsw]

theorem openai_primary_only_row_witness :
    (∃ row, queryOpenAIUsage tzFix .en 0 (fun _ => some "user@example.com")
        (.ok ⟨"team", some ⟨false, some ⟨15, 10800, 9000⟩, some ⟨40, 604800, 100000⟩⟩⟩)
        (some ⟨"oauth", some "tok", none, none⟩) =
        some ⟨true,
          some (formatOpenAIUsage .en
            ⟨"team", some ⟨false, some ⟨15, 10800, 9000⟩, some ⟨40, 604800, 100000⟩⟩⟩
            ((fun _ => some "user@example.com") "tok")),
          some [row], none⟩ ∧
      openaiExtractTableRow tzFix .en 0
          ⟨"team", some ⟨false, some ⟨15, 10800, 9000⟩, some ⟨40, 604800, 100000⟩⟩⟩
          ((fun _ => some "user@example.com") "tok") = some row ∧
      openaiExtractTableRow tzFix .en 0
          ⟨(⟨"team", some ⟨false, some ⟨15, 10800, 9000⟩, some ⟨40, 604800, 100000⟩⟩⟩ :
              OpenAIUsageResponse).plan_type,
            some ⟨false, some ⟨15, 10800, 9000⟩, none⟩⟩
          ((fun _ => some "user@example.com") "tok") = some row) ∧
    formatOpenAIUsageLines .en
        ⟨"team", some ⟨false, some ⟨15, 10800, 9000⟩, some ⟨40, 604800, 100000⟩⟩⟩
        ((fun _ => some "user@example.com") "tok") =
      [tAccount .en ++ "        " ++
        openaiAccountDisplay .en ((fun _ => some "user@example.com") "tok") ++ " (" ++
        (⟨"team", some ⟨false, some ⟨15, 10800, 9000⟩, some ⟨40, 604800, 100000⟩⟩⟩ :
          OpenAIUsageResponse).plan_type ++ ")", ""] ++
        formatWindow .en ⟨15, 10800, 9000⟩ ++ ("" :: formatWindow .en ⟨40, 604800, 100000⟩) ++
        (if (false : Bool) then ["", tLimitReached .en] else []) :=
  openai_primary_only_row tzFix .en 0 (fun _ => some "user@example.com")
    ⟨"team", some ⟨false, some ⟨15, 10800, 9000⟩, some ⟨40, 604800, 100000⟩⟩⟩
    ⟨false, some ⟨15, 10800, 9000⟩, some ⟨40, 604800, 100000⟩⟩
    ⟨15, 10800, 9000⟩ ⟨40, 604800, 100000⟩ "tok" ⟨"oauth", some "tok", none, none⟩
    rfl rfl rfl rfl rfl (by decide) rfl

/-! ## Claims about the aggregator -/

theorem append_ne_empty_left (s t : String) (hs : s ≠ "") : s ++ t ≠ "" := fun h =>
  hs (String.ext (List.append_eq_nil.mp (by simpa using congrArg String.data h)).1)

theorem renderTable_ne_empty (lang : Lang) (rows : List TableRowData) :
    renderTable lang rows ≠ "" := by
  have ht : tTableTitle lang ≠ "" := by cases lang <;> decide
  exact append_ne_empty_left _ _ (append_ne_empty_left _ _ (append_ne_empty_left _ _
    (append_ne_empty_left _ _ (append_ne_empty_left _ _ (append_ne_empty_left _ _ ht)))))

/-- A settled outcome that is `null` or an unsuccessful result never touches
the legacy-output or row accumulators. -/
theorem collectResult_no_success_keeps (q : Option QueryResult) (title : String)
    (acc : List String × List String × List TableRowData)
    (h : q = none ∨ ∃ r, q = some r ∧ r.success = false) :
    (collectResult q title acc).1 = acc.1 ∧ (collectResult q title acc).2.2 = acc.2.2 := by
  rcases h with rfl | ⟨r, rfl, hr⟩
  · exact ⟨rfl, rfl⟩
  · unfold collectResult
    dsimp only
    rw [hr]
    simp only [Bool.false_eq_true, if_false]
    split_ifs <;> exact ⟨rfl, rfl⟩

theorem collectAll_no_success (queries : List (String × Option QueryResult))
    (hall : ∀ q ∈ queries, q.2 = none ∨ ∃ r, q.2 = some r ∧ r.success = false) :
    ∀ acc, (collectAll queries acc).1 = acc.1 ∧ (collectAll queries acc).2.2 = acc.2.2 := by
  induction queries with
  | nil => intro acc; exact ⟨rfl, rfl⟩
  | cons q qs ih =>
    intro acc
    have hstep := collectResult_no_success_keeps q.2 q.1 acc (hall q (List.mem_cons_self _ _))
    have hrest := ih (fun p hp => hall p (List.mem_cons_of_mem _ hp))
      (collectResult q.2 q.1 acc)
    have hcons : collectAll (q :: qs) acc = collectAll qs (collectResult q.2 q.1 acc) := rfl
    rw [hcons]
    exact ⟨hrest.1.trans hstep.1, hrest.2.trans hstep.2⟩

/-- **C4.** When at least one adapter fails with an error string, the
aggregator appends the error strings — each on its own line — after any
successful table or legacy output, preceded by the localized query-failed
header; and when no adapter succeeded (zero successes, at least one failure),
the output is exactly the header followed by the concatenated error lines. -/
theorem executeAggregate_errors (lang : Lang)
    (queries : List (String × Option QueryResult)) :
    ((collectAll queries ([], [], [])).2.1 ≠ [] →
      (collectAll queries ([], [], [])).2.2 ≠ [] →
      executeAggregate lang queries =
        renderTable lang (collectAll queries ([], [], [])).2.2 ++ "\n\n" ++
          tQueryFailed lang ++ joinSep "\n" (collectAll queries ([], [], [])).2.1) ∧
    ((collectAll queries ([], [], [])).2.1 ≠ [] →
      (collectAll queries ([], [], [])).2.2 = [] →
      joinSep "\n" (collectAll queries ([], [], [])).1 ≠ "" →
      executeAggregate lang queries =
        joinSep "\n" (collectAll queries ([], [], [])).1 ++ "\n\n" ++
          tQueryFailed lang ++ joinSep "\n" (collectAll queries ([], [], [])).2.1) ∧
    ((∀ q ∈ queries, q.2 = none ∨ ∃ r, q.2 = some r ∧ r.success = false) →
      (collectAll queries ([], [], [])).2.1 ≠ [] →
      executeAggregate lang queries =
        tQueryFailed lang ++ joinSep "\n" (collectAll queries ([], [], [])).2.1) := by
  have hCof : (collectAll queries ([], [], [])).2.1 ≠ [] →
      0 < (collectAll queries ([], [], [])).2.1.length := fun herr =>
    List.length_pos.mpr herr
  refine ⟨?_, ?_, ?_⟩
  · intro herr hrows
    have hA : 0 < (collectAll queries ([], [], [])).2.2.length := List.length_pos.mpr hrows
    unfold executeAggregate
    dsimp only
    rw [if_neg (by rintro ⟨-, h0⟩; exact herr (List.length_eq_zero.mp h0))]
    simp only [if_pos hA, if_pos (hCof herr), if_pos (renderTable_ne_empty lang _)]
  · intro herr hrows hres
    have hresne : (collectAll queries ([], [], [])).1 ≠ [] := by
      intro h0
      rw [h0] at hres
      exact hres rfl
    have hA : ¬ 0 < (collectAll queries ([], [], [])).2.2.length := by
      rw [hrows]
      simp
    have hB : 0 < (collectAll queries ([], [], [])).1.length := List.length_pos.mpr hresne
    unfold executeAggregate
    dsimp only
    rw [if_neg (by rintro ⟨-, h0⟩; exact herr (List.length_eq_zero.mp h0))]
    simp only [if_neg hA, if_pos hB, if_pos (hCof herr), if_pos hres]
  · intro hall herr
    obtain ⟨hres0, hrows0⟩ := collectAll_no_success queries hall ([], [], [])
    have hA : ¬ 0 < (collectAll queries ([], [], [])).2.2.length := by
      rw [hrows0]
      simp
    have hB : ¬ 0 < (collectAll queries ([], [], [])).1.length := by
      rw [hres0]
      simp
    unfold executeAggregate
    dsimp only
    rw [if_neg (by rintro ⟨-, h0⟩; exact herr (List.length_eq_zero.mp h0))]
    simp only [if_neg hA, if_neg hB, if_pos (hCof herr),
      if_neg (show ¬ (("" : String) ≠ "") by simp)]
    rfl

theorem executeAggregate_errors_witness :
    executeAggregate .en
        [("## OpenAI Account Quota", some ⟨false, none, none, some "boom"⟩),
         ("## MiniMax Account Quota", some ⟨false, none, none, some "crash"⟩)] =
      tQueryFailed .en ++
        joinSep "\n"
          (collectAll
            [("## OpenAI Account Quota", some ⟨false, none, none, some "boom"⟩),
             ("## MiniMax Account Quota", some ⟨false, none, none, some "crash"⟩)]
            ([], [], [])).2.1 :=
  (executeAggregate_errors .en
    [("## OpenAI Account Quota", some ⟨false, none, none, some "boom"⟩),
     ("## MiniMax Account Quota", some ⟨false, none, none, some "crash"⟩)]).2.2
    (by decide) (by decide)

/-- **C9.** A failure `QueryResult` whose `error` field is absent or the
empty string contributes nothing: `collectResult` appends neither a legacy
block nor an error line, and the whole rendered output of the aggregator is
the same as if the provider had not been queried at all. -/
theorem collectResult_empty_error (r : QueryResult) (title : String)
    (acc : List String × List String × List TableRowData)
    (qs : List (String × Option QueryResult)) (lang : Lang)
    (hs : r.success = false) (he : r.error = none ∨ r.error = some "") :
    collectResult (some r) title acc = acc ∧
    collectAll ((title, some r) :: qs) acc = collectAll qs acc ∧
    executeAggregate lang ((title, some r) :: qs) = executeAggregate lang qs := by
  have hgen : ∀ acc', collectResult (some r) title acc' = acc' := by
    intro acc'
    unfold collectResult
    dsimp only
    rw [hs]
    simp only [Bool.false_eq_true, if_false]
    rcases he with h | h <;> rw [h] <;> rfl
  have hAll : ∀ acc', collectAll ((title, some r) :: qs) acc' = collectAll qs acc' := by
    intro acc'
    show collectAll qs (collectResult (some r) title acc') = collectAll qs acc'
    rw [hgen]
  refine ⟨hgen acc, hAll acc, ?_⟩
  unfold executeAggregate
  rw [hAll]

theorem collectResult_empty_error_witness :
    collectResult (some ⟨false, none, none, none⟩) "## OpenAI Account Quota"
        (["x"], ["y"], []) = (["x"], ["y"], []) ∧
    collectAll [("## OpenAI Account Quota", some ⟨false, none, none, none⟩)]
        (["x"], ["y"], []) = collectAll [] (["x"], ["y"], []) ∧
    executeAggregate .en [("## OpenAI Account Quota", some ⟨false, none, none, none⟩)] =
      executeAggregate .en [] :=
  collectResult_empty_error ⟨false, none, none, none⟩ "## OpenAI Account Quota"
    (["x"], ["y"], []) [] .en rfl (Or.inl rfl)

theorem createProgressBar_spec_witness :
    (((createProgressBar 50 30).length = 30 ∧
      ((0 : ℚ) ≤ 50 → (50 : ℚ) ≤ 100 →
        (jsRound ((50 : ℚ) / 100 * ((30 : ℕ) : ℚ))).toNat ≤ 30 ∧
        createProgressBar 50 30 =
          ⟨List.replicate (jsRound ((50 : ℚ) / 100 * ((30 : ℕ) : ℚ))).toNat '█' ++
            List.replicate (30 - (jsRound ((50 : ℚ) / 100 * ((30 : ℕ) : ℚ))).toNat) '░'⟩)) ∧
    createProgressBar 50 30 = createProgressBar (jsClamp 50) 30 ∧
    createProgressBar 0 30 = ⟨List.replicate 30 '░'⟩ ∧
    createProgressBar 100 30 = ⟨List.replicate 30 '█'⟩) :=
  createProgressBar_spec 50 30 (by decide)

theorem extractCountdown_formatResetTime_witness :
    extractCountdown (formatResetTime tzFix .en 0 61000 false) =
      formatDuration .en ((61000 - 0) / 1000) :=
  extractCountdown_formatResetTime tzFix 0 61000 (by decide)

end MyStatus

